import Mathlib

/-!
Verification development for the `valutatrade_hub` repository.

The definitions below are a shallow embedding, in Lean, of the core logic of
the repository:

* `valutatrade_hub/core/models.py` — `Wallet`, `Portfolio` and their
  balance-mutating operations (`deposit`, `withdraw`, the quantizing
  balance setter);
* `valutatrade_hub/core/usecases.py` — `_is_fresh`, `_pair_key`,
  `_get_rate_from_cache`, `buy_currency`, `sell_currency`, `get_rate`;
* `valutatrade_hub/core/currencies.py` — `_normalize_code`, `get_currency`
  and the statically registered currency codes;
* `valutatrade_hub/parser_service/updater.py` — `RatesUpdater.run_update`
  (the fetch → merge → persist cycle).

Modelling conventions:

* Python `Decimal` values are modelled as `ℚ`.  Additions and subtractions of
  the magnitudes appearing in this program are exact in `Decimal` (they stay
  far below the 28-significant-digit context precision), so they are embedded
  as exact rational arithmetic.  Division, which the program performs with
  `Decimal("1") / rate`, IS rounded by the context (28 significant digits,
  `ROUND_HALF_EVEN`); it is embedded by `decDiv` below.
* `Decimal.quantize` with `ROUND_HALF_UP` (the wallet balance setter) is
  embedded by `quantizeHalfUp`; `Decimal.quantize(Decimal("0.01"))` with the
  context default `ROUND_HALF_EVEN` (the estimated cost/revenue of a trade)
  is embedded by `quantizeHalfEven`.
* ISO-8601 timestamps handled by `datetime` arithmetic are modelled as
  integers counting seconds; a missing / falsy / unparseable `updated_at` is
  `Option.none`.  Timestamps that are compared *as strings* by the source
  (the merge step of `run_update`) are kept as `String`.
* Python `dict`s are modelled as association lists (`List (key × value)`)
  with `lookupA` (membership / `dict[k]`) and `insertA` (`dict[k] = v`:
  replace in place, or append for a new key), preserving insertion order.
* Raised exceptions are modelled with `Except`; the error type `Err` carries
  the data interpolated into each exception's message.
* File I/O (`_read_json` / `_atomic_write_json`) is modelled by passing the
  loaded document in and returning the document that is written back:
  the returned value is exactly what gets persisted.
-/

namespace VTHub

/-- Python `str.strip()`: drop leading and trailing whitespace
(`(currency or "").upper().strip()` and friends). -/
def pyStrip (s : String) : String :=
  ⟨((s.data.dropWhile Char.isWhitespace).reverse.dropWhile Char.isWhitespace).reverse⟩

/-- Python `str.upper()` (character-wise upper-casing). -/
def pyUpper (s : String) : String := ⟨s.data.map Char.toUpper⟩

/-- Python `" " in c` (used by `_normalize_code` in `currencies.py`). -/
def containsSpace (s : String) : Bool := s.data.contains ' '

/-- Python `str.isalnum()`: non-empty and every character alphanumeric. -/
def pyIsAlnum (s : String) : Bool := !s.data.isEmpty && s.data.all Char.isAlphanum

/-- Python `len` on a string. -/
def pyLen (s : String) : Nat := s.data.length

/-- Lookup in a Python `dict` modelled as an association list
(`d.get(k)` / `k in d` / `d[k]`). -/
def lookupA {α β : Type} [DecidableEq α] : List (α × β) → α → Option β
  | [], _ => none
  | (k, v) :: rest, key => if key = k then some v else lookupA rest key

/-- Assignment `d[k] = v` on a Python `dict` modelled as an association list:
replace the value at an existing key in place, append a new key at the end. -/
def insertA {α β : Type} [DecidableEq α] : List (α × β) → α → β → List (α × β)
  | [], key, val => [(key, val)]
  | (k, v) :: rest, key, val =>
    if key = k then (key, val) :: rest else (k, v) :: insertA rest key val

/-- Integer nearest-rounding with ties away from zero: `ROUND_HALF_UP` of the
Python `decimal` module, as applied to `x` in units of the target quantum. -/
def roundHalfUpInt (x : ℚ) : ℤ :=
  if 0 ≤ x then ⌊x + 1 / 2⌋ else -⌊-x + 1 / 2⌋

/-- Integer nearest-rounding with ties to even: `ROUND_HALF_EVEN`, the default
rounding of the Python `decimal` context. -/
def roundHalfEvenInt (x : ℚ) : ℤ :=
  let f := ⌊x⌋
  let r := x - (f : ℚ)
  if r < 1 / 2 then f
  else if 1 / 2 < r then f + 1
  else if f % 2 = 0 then f else f + 1

/-- `Decimal.quantize(q, rounding=ROUND_HALF_UP)`: round `x` to an integer
multiple of the quantum `q`, ties away from zero. -/
def quantizeHalfUp (q x : ℚ) : ℚ := (roundHalfUpInt (x / q) : ℚ) * q

/-- `Decimal.quantize(q)` under the context default `ROUND_HALF_EVEN`. -/
def quantizeHalfEven (q x : ℚ) : ℚ := (roundHalfEvenInt (x / q) : ℚ) * q

/-- Number of decimal digits of `n` (0 for `n = 0`), computed with explicit
fuel so that it reduces by kernel evaluation. -/
def digitsAux : Nat → Nat → Nat
  | 0, _ => 0
  | fuel + 1, n => if n = 0 then 0 else digitsAux fuel (n / 10) + 1

/-- Number of decimal digits of `n` (the fuel `n` is always sufficient). -/
def digits10 (n : Nat) : Nat := digitsAux n n

/-- Context precision of the Python `decimal` module as configured by
`getcontext().prec = 28` in `core/models.py`. -/
def DECIMAL_PREC : Nat := 28

/-- Decimal exponent of the leading significant digit of a positive rational:
`magExp10 x = ⌊log₁₀ x⌋`.  Computed by scaling the numerator so the floor of
the scaled value is at least 1 and counting its digits. -/
def magExp10 (x : ℚ) : ℤ :=
  let n := x.num.natAbs
  let d := x.den
  let k := digits10 d
  (digits10 (n * 10 ^ k / d) : ℤ) - (k : ℤ) - 1

/-- Rounding of a rational to `DECIMAL_PREC` significant digits with
`ROUND_HALF_EVEN`: the result every Python `Decimal` arithmetic operation
produces under the configured context.  Addition and subtraction in this
program never reach 28 significant digits, so only division goes through
this rounding. -/
def decRoundSig (x : ℚ) : ℚ :=
  if x = 0 then 0
  else
    let e : ℤ := magExp10 |x| - ((DECIMAL_PREC : ℤ) - 1)
    let r : ℚ := (roundHalfEvenInt (|x| / (10 : ℚ) ^ e) : ℚ) * (10 : ℚ) ^ e
    if x < 0 then -r else r

/-- Python `Decimal` division under the context `prec = 28`:
the exact quotient rounded to 28 significant digits, ties to even. -/
def decDiv (a b : ℚ) : ℚ := decRoundSig (a / b)

/-- Errors raised by the embedded code.  Each constructor stands for one of
the repository's exception classes and carries the data interpolated into
that exception's message:

* `valueError` — `ValueError` (`core/models.py`, `core/usecases.py`);
* `insufficientFunds available required code` — `InsufficientFundsError`,
  message `"Недостаточно средств: доступно {available} {code}, требуется
  {required} {code}"` (`Wallet.withdraw`);
* `rateNotFound frm to` — `CurrencyNotFoundError` raised by
  `_get_rate_from_cache`, message `"Курс {frm}->{to} недоступен или
  устарел"` (the spec's `RateUnavailable`);
* `unknownCurrency code` — `CurrencyNotFoundError` raised by
  `get_currency` in `core/currencies.py`, message `"Неизвестная валюта
  '{code}'"`;
* `validationError` — `ValidationError` (`core/currencies.py`);
* `noRateSource` — `CurrencyNotFoundError` raised by
  `Portfolio.get_total_value` when neither a provider nor a cache is given.
-/
inductive Err : Type
  | valueError (msg : String)
  | insufficientFunds (available required : ℚ) (code : String)
  | rateNotFound (frm toCode : String)
  | unknownCurrency (code : String)
  | validationError (msg : String)
  | noRateSource
deriving DecidableEq

/-- Quantum `Decimal("0.01")` used for fiat currencies (`_DEC_FIAT_Q`). -/
def DEC_FIAT_Q : ℚ := 1 / 100

/-- Quantum `Decimal("0.00000001")` used for crypto currencies
(`_DEC_CRYPTO_Q`). -/
def DEC_CRYPTO_Q : ℚ := 1 / 100000000

/-- `CURRENCY_PRECISION.get(code.upper(), _DEC_FIAT_Q)` from
`core/models.py`: the table maps USD/EUR/RUB to the fiat quantum and
USDT/BTC/ETH to the crypto quantum; every other code falls back to the fiat
quantum.  The dictionary lookup is written out as the equivalent chain of
equality tests on the (upper-cased) key. -/
def precisionLookup (code : String) : ℚ :=
  if code = "USD" ∨ code = "EUR" ∨ code = "RUB" then DEC_FIAT_Q
  else if code = "USDT" ∨ code = "BTC" ∨ code = "ETH" then DEC_CRYPTO_Q
  else DEC_FIAT_Q

/-- `_quantize_for_currency(code, amount)` from `core/models.py`:
round to the currency's quantum with `ROUND_HALF_UP`. -/
def quantizeForCurrency (code : String) (amount : ℚ) : ℚ :=
  quantizeHalfUp (precisionLookup (pyUpper code)) amount

/-- Regex `^[A-Z0-9]{2,10}$` (`_CCY_CODE_RE` in `core/models.py`). -/
def matchesCcyRe (s : String) : Bool :=
  (2 ≤ pyLen s && pyLen s ≤ 10) && s.data.all (fun ch => ch.isUpper || ch.isDigit)

/-- `_ensure_upper_currency` from `core/models.py`: strip and upper-case the
code, then require it to be non-empty and to match `^[A-Z0-9]{2,10}$`;
otherwise raise `ValueError`. -/
def ensureUpperCurrency (code : String) : Except Err String :=
  let c := pyUpper (pyStrip code)
  if c = "" || !matchesCcyRe c then
    .error (.valueError "bad currency code")
  else
    .ok c

/-- A `Wallet` from `core/models.py`: a currency code fixed at construction
and a `Decimal` balance. -/
structure Wallet : Type where
  currency_code : String
  balance : ℚ
deriving DecidableEq

/-- The `Wallet.balance` setter: reject a negative value with `ValueError`,
otherwise store the value quantized to the wallet currency's precision with
`ROUND_HALF_UP`. -/
def Wallet.setBalance (w : Wallet) (value : ℚ) : Except Err Wallet :=
  if value < 0 then .error (.valueError "negative balance")
  else .ok { w with balance := quantizeForCurrency w.currency_code value }

/-- The `Wallet` constructor (`Wallet(currency_code, balance=0)`): validate
the code with `_ensure_upper_currency`, then run the balance through the
setter. -/
def Wallet.make (currency_code : String) (balance : ℚ) : Except Err Wallet :=
  match ensureUpperCurrency currency_code with
  | .error e => .error e
  | .ok code => Wallet.setBalance { currency_code := code, balance := 0 } balance

/-- `Wallet.deposit`: require a positive amount, then set
`balance := balance + amount` through the quantizing setter. -/
def Wallet.deposit (w : Wallet) (amount : ℚ) : Except Err Wallet :=
  if amount ≤ 0 then .error (.valueError "amount must be positive")
  else w.setBalance (w.balance + amount)

/-- `Wallet.withdraw`: require a positive amount; if it exceeds the balance
raise `InsufficientFundsError` carrying `available = balance` and
`required = amount`; otherwise set `balance := balance - amount` through the
quantizing setter. -/
def Wallet.withdraw (w : Wallet) (amount : ℚ) : Except Err Wallet :=
  if amount ≤ 0 then .error (.valueError "amount must be positive")
  else if w.balance < amount then
    .error (.insufficientFunds w.balance amount w.currency_code)
  else w.setBalance (w.balance - amount)

/-- One balance mutation on a wallet, for stating the "no sequence of
operations leaves a balance negative" invariant. -/
inductive WalletOp : Type
  | deposit (amount : ℚ)
  | withdraw (amount : ℚ)

/-- Apply one operation; a raised exception leaves the wallet unchanged
(the Python setter assigns only after all checks pass). -/
def applyOp (w : Wallet) : WalletOp → Wallet
  | .deposit a => match w.deposit a with | .ok w' => w' | .error _ => w
  | .withdraw a => match w.withdraw a with | .ok w' => w' | .error _ => w

/-- Apply a sequence of deposit/withdraw operations. -/
def applyOps (w : Wallet) (ops : List WalletOp) : Wallet := ops.foldl applyOp w

/-- A `Portfolio` from `core/models.py`: a user id and the dict of wallets
keyed by currency code (insertion order preserved). -/
structure Portfolio : Type where
  user_id : ℤ
  wallets : List (String × Wallet)
deriving DecidableEq

/-- `Portfolio.add_currency`: validate the code; return the existing wallet
for that key, or create a zero-balance wallet and append it.  The result also
carries the normalized key under which the wallet sits in the dict. -/
def Portfolio.addCurrency (p : Portfolio) (currency_code : String) :
    Except Err (Portfolio × String × Wallet) :=
  match ensureUpperCurrency currency_code with
  | .error e => .error e
  | .ok code =>
    match lookupA p.wallets code with
    | some w => .ok (p, code, w)
    | none =>
      match Wallet.make code 0 with
      | .error e => .error e
      | .ok w => .ok ({ p with wallets := p.wallets ++ [(code, w)] }, code, w)

/-- `Portfolio.get_wallet`: validate/normalize the code and look it up;
returns the normalized key together with the optional wallet. -/
def Portfolio.getWallet (p : Portfolio) (currency_code : String) :
    Except Err (String × Option Wallet) :=
  match ensureUpperCurrency currency_code with
  | .error e => .error e
  | .ok code => .ok (code, lookupA p.wallets code)

/-- The inner `_get_rate` of `Portfolio.get_total_value` in
`core/models.py`: rate 1 for `frm == to` with no lookup, otherwise the
provider if given, otherwise the `(frm, to)` entry of the rate cache
(raising `CurrencyNotFoundError` on a miss), otherwise
`CurrencyNotFoundError` for a missing source. -/
def totalGetRate (rate_provider : Option (String → String → ℚ))
    (rate_cache : Option (List ((String × String) × ℚ)))
    (frm toCode : String) : Except Err ℚ :=
  if frm = toCode then .ok 1
  else
    match rate_provider with
    | some f => .ok (f frm toCode)
    | none =>
      match rate_cache with
      | some cache =>
        match lookupA cache (frm, toCode) with
        | none => .error (.rateNotFound frm toCode)
        | some r => .ok r
      | none => .error .noRateSource

/-- One value of the `rates.json` mapping: `{"rate": ..., "updated_at": ...}`.
`updated_at = none` models a missing, empty or unparseable timestamp (all of
which `_get_rate_from_cache` treats alike: falsy or `_is_fresh = False`). -/
structure RateEntry : Type where
  rate : ℚ
  updated_at : Option ℤ
deriving DecidableEq

/-- The loaded `rates.json` document (its `source` / `last_refresh`
bookkeeping keys play no role in rate lookup). -/
abbrev RatesCache : Type := List (String × RateEntry)

/-- `DEFAULT_TTL_SECONDS = 300` from `core/usecases.py`. -/
def DEFAULT_TTL_SECONDS : ℤ := 300

/-- `_is_fresh(iso_ts, ttl_seconds)` from `core/usecases.py` on a parseable
timestamp: `now - ts <= timedelta(seconds=ttl)`. -/
def isFresh (ts ttl now : ℤ) : Bool := now - ts ≤ ttl

/-- `_pair_key(frm, to)` from `core/usecases.py`: `f"{frm.upper()}_{to.upper()}"`. -/
def pairKey (frm toCode : String) : String :=
  pyUpper frm ++ "_" ++ pyUpper toCode

/-- One arm of `_get_rate_from_cache`: take the rate and timestamp of a cache
entry if the entry exists, has a truthy `updated_at` and is fresh. -/
def freshEntry (entry : Option RateEntry) (ttl now : ℤ) : Option (ℚ × ℤ) :=
  match entry with
  | none => none
  | some e =>
    match e.updated_at with
    | none => none
    | some ts => if isFresh ts ttl now then some (e.rate, ts) else none

/-- `_get_rate_from_cache(frm, to, ttl_seconds)` from `core/usecases.py`:
return the direct pair's rate if present and fresh, else `1 / rate` of the
inverse pair if present and fresh (a context-rounded `Decimal` division),
else raise `CurrencyNotFoundError` (`"Курс {frm}->{to} недоступен или
устарел"`). -/
def getRateFromCache (rates : RatesCache) (frm toCode : String)
    (ttl now : ℤ) : Except Err (ℚ × ℤ) :=
  match freshEntry (lookupA rates (pairKey frm toCode)) ttl now with
  | some (r, ts) => .ok (r, ts)
  | none =>
    match freshEntry (lookupA rates (pairKey toCode frm)) ttl now with
    | some (r, ts) => .ok (decDiv 1 r, ts)
    | none => .error (.rateNotFound frm toCode)

/-- Result dict of `get_rate` in `core/usecases.py`.  `inverse = none`
renders as the string `"N/A"` (the `Decimal("1") / rate` attempt raises on a
zero rate and is swallowed). -/
structure GetRateResult : Type where
  fromCode : String
  toCode : String
  rate : ℚ
  updated_at : ℤ
  inverse : Option ℚ
deriving DecidableEq

/-- `get_rate(frm, to, ttl_seconds)` from `core/usecases.py`: upper-case and
strip both codes, reject empty ones, resolve through the cache and attach the
(attempted) inverse rate. -/
def getRate (rates : RatesCache) (frm toCode : String) (ttl now : ℤ) :
    Except Err GetRateResult :=
  let f := pyStrip (pyUpper frm)
  let t := pyStrip (pyUpper toCode)
  if f = "" ∨ t = "" then .error (.valueError "empty currency codes")
  else
    match getRateFromCache rates f t ttl now with
    | .error e => .error e
    | .ok (rate, updated) =>
      .ok { fromCode := f, toCode := t, rate := rate, updated_at := updated,
            inverse := if rate = 0 then none else some (decDiv 1 rate) }

/-- Result dict of `buy_currency` / `sell_currency`.  `rate_used = none` and
`estimated_in_base = none` render as the string `"N/A"`;
`estimated_in_base` is the `estimated_cost_in_base` field for a buy and the
`estimated_revenue_in_base` field for a sell. -/
structure TradeResult : Type where
  currency : String
  amount : ℚ
  before : ℚ
  after : ℚ
  rate_used : Option ℚ
  estimated_in_base : Option ℚ
  base : String
deriving DecidableEq

/-- The portfolios document (`portfolios.json`): one portfolio per user id. -/
abbrev Portfolios : Type := List (ℤ × Portfolio)

/-- `buy_currency(currency, amount, base)` from `core/usecases.py`.

The embedding takes the loaded portfolios document, the loaded rates cache,
the current user's id (`current_user().user_id`) and the current time; it
returns the portfolios document handed to `_save_portfolios` together with
the result dict.  Control flow of the source: validate `amount > 0` and a
non-empty upper-cased code; take the user's portfolio (default empty);
`add_currency`; `deposit`; attempt `_get_rate_from_cache`, swallowing
`CurrencyNotFoundError`; persist; build the result. -/
def buyCurrency (portfolios : Portfolios) (rates : RatesCache) (uid : ℤ)
    (currency : String) (amount : ℚ) (base : String) (now : ℤ) :
    Except Err (Portfolios × TradeResult) :=
  if amount ≤ 0 then .error (.valueError "amount must be positive")
  else
    let cur := pyStrip (pyUpper currency)
    if cur = "" then .error (.valueError "bad currency code")
    else
      let p := (lookupA portfolios uid).getD { user_id := uid, wallets := [] }
      match p.addCurrency cur with
      | .error e => .error e
      | .ok (p1, key, target) =>
        let before := target.balance
        match target.deposit amount with
        | .error e => .error e
        | .ok target1 =>
          let p2 := { p1 with wallets := insertA p1.wallets key target1 }
          let rateOpt := (getRateFromCache rates cur base DEFAULT_TTL_SECONDS now).toOption
          let portfolios1 := insertA portfolios uid p2
          .ok (portfolios1,
            { currency := cur, amount := amount, before := before,
              after := target1.balance,
              rate_used := rateOpt.map Prod.fst,
              estimated_in_base :=
                rateOpt.map (fun rc => quantizeHalfEven DEC_FIAT_Q (amount * rc.1)),
              base := base })

/-- `sell_currency(currency, amount, base)` from `core/usecases.py`:
same validation as a buy; require an existing wallet for the currency
(`ValueError` otherwise); `withdraw` (whose insufficient-funds check can
raise); attempt the rate lookup, swallowing `CurrencyNotFoundError`;
persist; build the result. -/
def sellCurrency (portfolios : Portfolios) (rates : RatesCache) (uid : ℤ)
    (currency : String) (amount : ℚ) (base : String) (now : ℤ) :
    Except Err (Portfolios × TradeResult) :=
  if amount ≤ 0 then .error (.valueError "amount must be positive")
  else
    let cur := pyStrip (pyUpper currency)
    if cur = "" then .error (.valueError "bad currency code")
    else
      let p := (lookupA portfolios uid).getD { user_id := uid, wallets := [] }
      match p.getWallet cur with
      | .error e => .error e
      | .ok (_, none) => .error (.valueError "no wallet for currency")
      | .ok (key, some wallet) =>
        let before := wallet.balance
        match wallet.withdraw amount with
        | .error e => .error e
        | .ok wallet1 =>
          let p2 := { p with wallets := insertA p.wallets key wallet1 }
          let rateOpt := (getRateFromCache rates cur base DEFAULT_TTL_SECONDS now).toOption
          let portfolios1 := insertA portfolios uid p2
          .ok (portfolios1,
            { currency := cur, amount := amount, before := before,
              after := wallet1.balance,
              rate_used := rateOpt.map Prod.fst,
              estimated_in_base :=
                rateOpt.map (fun rc => quantizeHalfEven DEC_FIAT_Q (amount * rc.1)),
              base := base })

/-- Rejection condition of `_normalize_code` in `core/currencies.py`:
`not (2 <= len(c) <= 5) or " " in c or not c.isalnum()`. -/
def normRejects (c : String) : Bool :=
  !(2 ≤ pyLen c && pyLen c ≤ 5) || containsSpace c || !pyIsAlnum c

/-- `_normalize_code(code)` from `core/currencies.py`: strip, upper-case,
then raise `ValidationError` unless the length is between 2 and 5, there is
no space, and the string is alphanumeric. -/
def normalizeCode (code : String) : Except Err String :=
  let c := pyUpper (pyStrip code)
  if normRejects c then .error (.validationError "bad currency code shape")
  else .ok c

/-- The codes registered in `_REG` at import time of `core/currencies.py`
(three `FiatCurrency` and three `CryptoCurrency` entries; their display
metadata plays no role in lookup errors and is elided). -/
def REGISTERED_CODES : List String := ["USD", "EUR", "RUB", "BTC", "ETH", "USDT"]

/-- `get_currency(code)` from `core/currencies.py`: normalize (which may
raise `ValidationError`), then raise `CurrencyNotFoundError` for an
unregistered code; the registered code is returned in place of the registry's
`Currency` object. -/
def getCurrency (code : String) : Except Err String :=
  match normalizeCode code with
  | .error e => .error e
  | .ok key =>
    if key ∈ REGISTERED_CODES then .ok key else .error (.unknownCurrency key)

/-- Lexicographic comparison of character lists by code point: the semantics
of Python's `<` on `str`, which `run_update` applies to `updated_at` strings
(`cur_ts > prev_ts`). -/
def charListLt : List Char → List Char → Bool
  | [], [] => false
  | [], _ :: _ => true
  | _ :: _, [] => false
  | a :: as, b :: bs => if a < b then true else if b < a then false else charListLt as bs

/-- Python `s1 < s2` on strings (code-point lexicographic order). -/
def strLt (a b : String) : Bool := charListLt a.data b.data

/-- One value of the `pairs` mapping produced by a parser-service client:
`{"rate": ..., "updated_at": "...Z", "source": ...}`.  The merge step of
`RatesUpdater.run_update` compares the `updated_at` fields as strings, so
the timestamp is kept as a string here. -/
structure PairEntry : Type where
  rate : ℚ
  updated_at : String
  source : String
deriving DecidableEq

/-- The `pairs` dict merged by an update cycle. -/
abbrev Pairs : Type := List (String × PairEntry)

/-- The inner merge of `RatesUpdater.run_update` for one fetched pair:
a new key is inserted; an existing key is overwritten only when the incoming
`updated_at` string is strictly greater (`cur_ts > prev_ts`), so ties keep
the quote already present. -/
def mergeStep (m : Pairs) (kv : String × PairEntry) : Pairs :=
  match lookupA m kv.1 with
  | none => insertA m kv.1 kv.2
  | some prev =>
    if strLt prev.updated_at kv.2.updated_at then insertA m kv.1 kv.2 else m

/-- Merge every pair fetched from one client into the accumulated dict, in
iteration order. -/
def mergeInto (m : Pairs) (fetched : Pairs) : Pairs := fetched.foldl mergeStep m

/-- Outcome of one client's `fetch()` inside `run_update`: either the
`(pairs, history)` payload or the `ApiRequestError` message that was caught
and collected. -/
abbrev FetchOutcome (H : Type) : Type := Except String (Pairs × List H)

/-- Accumulator of the client loop in `run_update`:
`(merged_pairs, history_records, errors, ok_sources)`. -/
abbrev CycleAcc (H : Type) : Type := Pairs × List H × List String × Nat

/-- One iteration of the client loop in `run_update`: a successful fetch
merges its pairs, appends its history records and bumps `ok_sources`; a
failed fetch only collects its error message. -/
def cycleStep {H : Type} (acc : CycleAcc H) (res : FetchOutcome H) : CycleAcc H :=
  match res with
  | .ok (pairs, hist) =>
    (mergeInto acc.1 pairs, acc.2.1 ++ hist, acc.2.2.1, acc.2.2.2 + 1)
  | .error e => (acc.1, acc.2.1, acc.2.2.1 ++ [e], acc.2.2.2)

/-- The persisted `rates.json` payload: `{"pairs": ..., "last_refresh": ...}`. -/
structure RatesDoc : Type where
  pairs : Pairs
  last_refresh : String
deriving DecidableEq

/-- The report dict returned by `run_update`. -/
structure RunReport : Type where
  status : String
  ok_sources : Nat
  errors : List String
  pairs_count : Nat
  last_refresh : String
deriving DecidableEq

/-- Everything `run_update` leaves behind: its report, the `rates.json`
document it writes, and the history document it writes. -/
structure UpdateOutcome (H : Type) : Type where
  report : RunReport
  ratesDoc : RatesDoc
  history : List H

/-- `RatesUpdater.run_update` from `parser_service/updater.py`, parametric in
the type `H` of history records.  `results` is the list of per-client fetch
outcomes in invocation order; `oldHistory` is the parsed previous history
file (`none` when missing or not a list).  The source writes the cache
payload and the extended history unconditionally — there is no status check
before either `_write_atomic_json` call — and then computes the aggregate
status `success` / `partial` / `failed`. -/
def runUpdate {H : Type} (results : List (FetchOutcome H))
    (oldHistory : Option (List H)) (now : String) : UpdateOutcome H :=
  let acc := results.foldl cycleStep (([], [], [], 0) : CycleAcc H)
  let merged := acc.1
  let historyRecords := acc.2.1
  let errors := acc.2.2.1
  let okSources := acc.2.2.2
  let status :=
    if 0 < okSources ∧ errors = [] then "success"
    else if 0 < okSources then "partial"
    else "failed"
  { report :=
      { status := status, ok_sources := okSources, errors := errors,
        pairs_count := merged.length, last_refresh := now },
    ratesDoc := { pairs := merged, last_refresh := now },
    history := oldHistory.getD [] ++ historyRecords }

end VTHub

deriving instance DecidableEq for Except

namespace VTHub

/-- Balance of the wallet stored for user `uid` under `code` in a persisted
portfolios document (used to state concrete scenarios). -/
def walletBalance (ps : Portfolios) (uid : ℤ) (code : String) : Option ℚ :=
  (lookupA ps uid).bind fun p => (lookupA p.wallets code).map Wallet.balance

/-- Concrete portfolio for the spec's §8 scenario: user 1 holds 1000.00 USD
and 0.05 BTC. -/
def FIX_P : Portfolio :=
  { user_id := 1,
    wallets := [("USD", { currency_code := "USD", balance := 1000 }),
                ("BTC", { currency_code := "BTC", balance := 5 / 100 })] }

/-- Concrete portfolios document holding `FIX_P` for user 1. -/
def FIX_PORTFOLIOS : Portfolios := [(1, FIX_P)]

/-- Concrete rates cache: a single `BTC_USD` quote at 60000, observed at
time 900 (fresh at time 1000 for the default 300-second TTL). -/
def FIX_RATES : RatesCache :=
  [("BTC_USD", { rate := 60000, updated_at := some 900 })]

/-- Concrete rates cache with a single fresh `EUR_USD` quote of rate 7
(a rate whose reciprocal does not round-trip at 28 significant digits). -/
def CE8_RATES : RatesCache := [("EUR_USD", { rate := 7, updated_at := some 0 })]

/-- Concrete rates cache with a single fresh `EUR_USD` quote of rate 8
(a rate whose reciprocal is exactly representable). -/
def W8_RATES : RatesCache := [("EUR_USD", { rate := 8, updated_at := some 0 })]

/-- Fetch outcomes of an update cycle in which both clients failed. -/
def CE3_RESULTS : List (FetchOutcome String) :=
  [Except.error "CoinGecko: request failed", Except.error "ExchangeRate-API: request failed"]

/-- A previously persisted non-empty rates snapshot, for comparison with what
a failed cycle writes over it. -/
def CE3_PREV : RatesDoc :=
  { pairs := [("BTC_USD",
      { rate := 59000, updated_at := "2025-10-10T12:00:00Z", source := "CoinGecko" })],
    last_refresh := "2025-10-10T12:05:00Z" }

/-- Quote observed at 12:00:00 (the older of two quotes for one pair). -/
def W5_Q1 : PairEntry :=
  { rate := 100, updated_at := "2025-10-10T12:00:00Z", source := "CoinGecko" }

/-- Quote observed at 12:00:01 (the newer of two quotes for one pair). -/
def W5_Q2 : PairEntry :=
  { rate := 200, updated_at := "2025-10-10T12:00:01Z", source := "ExchangeRate-API" }

/-- Quote observed at 12:00:00 from the other source (a timestamp tie with
`W5_Q1`). -/
def W5_Q3 : PairEntry :=
  { rate := 300, updated_at := "2025-10-10T12:00:00Z", source := "ExchangeRate-API" }

end VTHub

namespace VTHub

/-! Helper lemmas about association lists (the `dict` model). -/

theorem lookupA_insertA_self {α β : Type} [DecidableEq α] (m : List (α × β)) (k : α) (v : β) :
    lookupA (insertA m k v) k = some v := by
  induction m with
  | nil => simp [insertA, lookupA]
  | cons kv rest ih =>
    obtain ⟨a, b⟩ := kv
    by_cases h : k = a
    · simp [insertA, h, lookupA]
    · simp [insertA, h, lookupA, ih]

theorem lookupA_insertA_ne {α β : Type} [DecidableEq α] (m : List (α × β)) (k k' : α) (v : β)
    (h : k' ≠ k) : lookupA (insertA m k v) k' = lookupA m k' := by
  induction m with
  | nil => simp [insertA, lookupA, h]
  | cons kv rest ih =>
    obtain ⟨a, b⟩ := kv
    by_cases hk : k = a
    · subst hk; simp [insertA, lookupA, h]
    · by_cases hka : k' = a <;> simp [insertA, lookupA, hk, hka, ih]

theorem lookupA_append_singleton_ne {α β : Type} [DecidableEq α] (m : List (α × β)) (c k : α)
    (w : β) (h : k ≠ c) : lookupA (m ++ [(c, w)]) k = lookupA m k := by
  induction m with
  | nil => simp [lookupA, h]
  | cons kv rest ih =>
    obtain ⟨a, b⟩ := kv
    by_cases hka : k = a <;> simp [lookupA, hka, ih]

theorem lookupA_eq_none_iff {α β : Type} [DecidableEq α] (m : List (α × β)) (k : α) :
    lookupA m k = none ↔ k ∉ m.map Prod.fst := by
  induction m with
  | nil => simp [lookupA]
  | cons kv rest ih =>
    obtain ⟨a, b⟩ := kv
    by_cases hka : k = a <;> simp [lookupA, hka, ih]

theorem map_fst_insertA {α β : Type} [DecidableEq α] (m : List (α × β)) (k : α) (v : β) :
    (insertA m k v).map Prod.fst =
      if (lookupA m k).isNone then m.map Prod.fst ++ [k] else m.map Prod.fst := by
  induction m with
  | nil => simp [insertA, lookupA]
  | cons kv rest ih =>
    obtain ⟨a, b⟩ := kv
    by_cases hk : k = a
    · subst hk; simp [insertA, lookupA]
    · simp only [insertA, lookupA, List.map_cons, ih, if_neg hk]
      by_cases hl : (lookupA rest k).isNone
      · simp [hl]
      · simp [hl]

theorem nodup_keys_insertA {α β : Type} [DecidableEq α] (m : List (α × β)) (k : α) (v : β)
    (h : (m.map Prod.fst).Nodup) : ((insertA m k v).map Prod.fst).Nodup := by
  rw [map_fst_insertA]
  by_cases hl : (lookupA m k).isNone
  · rw [if_pos hl]
    have hk : k ∉ m.map Prod.fst :=
      (lookupA_eq_none_iff m k).mp (Option.isNone_iff_eq_none.mp hl)
    refine List.Nodup.append h (List.nodup_singleton k) ?_
    intro x hx hmem
    rw [List.mem_singleton] at hmem
    subst hmem
    exact hk hx
  · rw [if_neg hl]; exact h

/-! Helper lemmas about the rounding model and the string order. -/

theorem roundHalfUpInt_nonneg {x : ℚ} (hx : 0 ≤ x) : 0 ≤ roundHalfUpInt x := by
  unfold roundHalfUpInt
  rw [if_pos hx]
  exact Int.floor_nonneg.mpr (by linarith)

theorem roundHalfUpInt_zero : roundHalfUpInt 0 = 0 := by
  unfold roundHalfUpInt
  norm_num

theorem quantizeHalfUp_nonneg {q x : ℚ} (hq : 0 < q) (hx : 0 ≤ x) : 0 ≤ quantizeHalfUp q x := by
  unfold quantizeHalfUp
  have h : (0 : ℚ) ≤ (roundHalfUpInt (x / q) : ℚ) := by
    exact_mod_cast roundHalfUpInt_nonneg (div_nonneg hx hq.le)
  exact mul_nonneg h hq.le

theorem quantizeHalfUp_zero (q : ℚ) : quantizeHalfUp q 0 = 0 := by
  simp [quantizeHalfUp, roundHalfUpInt_zero]

theorem precisionLookup_pos (code : String) : 0 < precisionLookup code := by
  unfold precisionLookup DEC_FIAT_Q DEC_CRYPTO_Q
  split
  · norm_num
  · split <;> norm_num

theorem quantizeForCurrency_nonneg (code : String) {x : ℚ} (hx : 0 ≤ x) :
    0 ≤ quantizeForCurrency code x :=
  quantizeHalfUp_nonneg (precisionLookup_pos _) hx

theorem quantizeForCurrency_zero (code : String) : quantizeForCurrency code 0 = 0 :=
  quantizeHalfUp_zero _

theorem charListLt_asymm : ∀ (a b : List Char),
    charListLt a b = true → charListLt b a = false
  | [], [] => by simp [charListLt]
  | [], _ :: _ => by simp [charListLt]
  | _ :: _, [] => by simp [charListLt]
  | a :: as, b :: bs => by
    simp only [charListLt]
    by_cases h1 : a < b
    · simp only [if_pos h1, if_neg (lt_asymm h1)]
      trivial
    · by_cases h2 : b < a
      · simp only [if_neg h1, if_pos h2]
        exact fun h => absurd h (by decide)
      · simp only [if_neg h1, if_neg h2]
        exact charListLt_asymm as bs

theorem charListLt_irrefl : ∀ (a : List Char), charListLt a a = false
  | [] => rfl
  | a :: as => by
    simp only [charListLt, if_neg (lt_irrefl a)]
    exact charListLt_irrefl as

/-! Helper lemmas about `Wallet` operations. -/

theorem Wallet.deposit_ok (w : Wallet) (a : ℚ) (ha : 0 < a) (hb : 0 ≤ w.balance) :
    w.deposit a = .ok { currency_code := w.currency_code,
                        balance := quantizeForCurrency w.currency_code (w.balance + a) } := by
  unfold Wallet.deposit Wallet.setBalance
  rw [if_neg (not_le.mpr ha), if_neg (not_lt.mpr (by linarith))]

theorem Wallet.withdraw_ok (w : Wallet) (a : ℚ) (ha : 0 < a) (hs : a ≤ w.balance) :
    w.withdraw a = .ok { currency_code := w.currency_code,
                         balance := quantizeForCurrency w.currency_code (w.balance - a) } := by
  unfold Wallet.withdraw Wallet.setBalance
  rw [if_neg (not_le.mpr ha), if_neg (not_lt.mpr hs), if_neg (not_lt.mpr (by linarith))]

theorem Wallet.withdraw_insufficient (w : Wallet) (a : ℚ) (hb : 0 ≤ w.balance)
    (hlt : w.balance < a) :
    w.withdraw a = .error (.insufficientFunds w.balance a w.currency_code) := by
  unfold Wallet.withdraw
  rw [if_neg (not_le.mpr (lt_of_le_of_lt hb hlt)), if_pos hlt]

theorem applyOp_balance_nonneg (w : Wallet) (op : WalletOp) (hb : 0 ≤ w.balance) :
    0 ≤ (applyOp w op).balance := by
  cases op with
  | deposit a =>
    rcases le_or_lt a 0 with ha | ha
    · simp [applyOp, Wallet.deposit, if_pos ha, hb]
    · rw [applyOp, Wallet.deposit_ok w a ha hb]
      exact quantizeForCurrency_nonneg _ (by linarith)
  | withdraw a =>
    rcases le_or_lt a 0 with ha | ha
    · simp [applyOp, Wallet.withdraw, if_pos ha, hb]
    · rcases le_or_lt a w.balance with hs | hlt
      · rw [applyOp, Wallet.withdraw_ok w a ha hs]
        exact quantizeForCurrency_nonneg _ (by linarith)
      · rw [applyOp, Wallet.withdraw_insufficient w a hb hlt]
        exact hb

theorem applyOps_balance_nonneg (ops : List WalletOp) (w : Wallet) (hb : 0 ≤ w.balance) :
    0 ≤ (applyOps w ops).balance := by
  induction ops generalizing w with
  | nil => simpa [applyOps] using hb
  | cons op rest ih =>
    rw [applyOps, List.foldl_cons]
    exact ih (applyOp w op) (applyOp_balance_nonneg w op hb)

/-! Helper lemmas about the cached-rate resolver. -/

theorem getRateFromCache_direct_ok (rates : RatesCache) (frm toCode : String) (r : ℚ)
    (obs ttl now : ℤ)
    (hd : lookupA rates (pairKey frm toCode) = some { rate := r, updated_at := some obs })
    (hfresh : now - obs ≤ ttl) :
    getRateFromCache rates frm toCode ttl now = .ok (r, obs) := by
  unfold getRateFromCache
  rw [hd]
  simp [freshEntry, isFresh, hfresh]

theorem getRateFromCache_inverse_ok (rates : RatesCache) (frm toCode : String) (r : ℚ)
    (obs ttl now : ℤ)
    (hdirect : lookupA rates (pairKey frm toCode) = none)
    (hinv : lookupA rates (pairKey toCode frm) = some { rate := r, updated_at := some obs })
    (hfresh : now - obs ≤ ttl) :
    getRateFromCache rates frm toCode ttl now = .ok (decDiv 1 r, obs) := by
  unfold getRateFromCache
  rw [hdirect, hinv]
  simp [freshEntry, isFresh, hfresh]

theorem getRateFromCache_stale (rates : RatesCache) (frm toCode : String) (r : ℚ)
    (obs ttl now : ℤ)
    (hd : lookupA rates (pairKey frm toCode) = some { rate := r, updated_at := some obs })
    (hi : lookupA rates (pairKey toCode frm) = none)
    (hstale : ttl < now - obs) :
    getRateFromCache rates frm toCode ttl now = .error (.rateNotFound frm toCode) := by
  unfold getRateFromCache
  rw [hd, hi]
  simp [freshEntry, isFresh, not_le.mpr hstale]

end VTHub

namespace VTHub

/-! Specification lemmas for the trade operations, shared by several claims. -/

theorem buyCurrency_ok_spec (portfolios : Portfolios) (rates : RatesCache) (uid : ℤ)
    (currency cur : String) (amount : ℚ) (base : String) (now : ℤ) (p : Portfolio)
    (hcur : pyStrip (pyUpper currency) = cur)
    (hshape : ensureUpperCurrency cur = Except.ok cur)
    (hamt : 0 < amount)
    (hp : (lookupA portfolios uid).getD { user_id := uid, wallets := [] } = p)
    (hw : ∀ w, lookupA p.wallets cur = some w → w.currency_code = cur ∧ 0 ≤ w.balance) :
    ∃ p2 : Portfolio,
      buyCurrency portfolios rates uid currency amount base now =
        Except.ok (insertA portfolios uid p2,
          { currency := cur, amount := amount,
            before := ((lookupA p.wallets cur).map Wallet.balance).getD 0,
            after := quantizeForCurrency cur
              (((lookupA p.wallets cur).map Wallet.balance).getD 0 + amount),
            rate_used :=
              (getRateFromCache rates cur base DEFAULT_TTL_SECONDS now).toOption.map Prod.fst,
            estimated_in_base :=
              (getRateFromCache rates cur base DEFAULT_TTL_SECONDS now).toOption.map
                (fun rc => quantizeHalfEven DEC_FIAT_Q (amount * rc.1)),
            base := base })
      ∧ lookupA p2.wallets cur = some (Wallet.mk cur (quantizeForCurrency cur
            (((lookupA p.wallets cur).map Wallet.balance).getD 0 + amount)))
      ∧ (∀ k2, k2 ≠ cur → lookupA p2.wallets k2 = lookupA p.wallets k2) := by
  have hne : cur ≠ "" := by
    intro h
    rw [h] at hshape
    exact absurd hshape (by decide)
  cases hlw : lookupA p.wallets cur with
  | some w =>
    obtain ⟨hwc, hwb⟩ := hw w hlw
    refine ⟨⟨p.user_id, insertA p.wallets cur
        ⟨cur, quantizeForCurrency cur (w.balance + amount)⟩⟩, ?_, ?_, ?_⟩
    · simp only [buyCurrency, if_neg (not_le.mpr hamt), hcur, if_neg hne, hp,
        Portfolio.addCurrency, hshape, hlw]
      rw [Wallet.deposit_ok w amount hamt hwb]
      simp [hwc]
    · rw [lookupA_insertA_self]
      simp
    · intro k2 hk2
      exact lookupA_insertA_ne _ _ _ _ hk2
  | none =>
    refine ⟨⟨p.user_id, insertA (p.wallets ++ [(cur, ⟨cur, 0⟩)]) cur
        ⟨cur, quantizeForCurrency cur (0 + amount)⟩⟩, ?_, ?_, ?_⟩
    · simp only [buyCurrency, if_neg (not_le.mpr hamt), hcur, if_neg hne, hp,
        Portfolio.addCurrency, hshape, hlw, Wallet.make, Wallet.setBalance,
        if_neg (lt_irrefl (0 : ℚ)), quantizeForCurrency_zero]
      rw [Wallet.deposit_ok { currency_code := cur, balance := 0 } amount hamt le_rfl]
      simp
    · rw [lookupA_insertA_self]
      simp
    · intro k2 hk2
      rw [lookupA_insertA_ne _ _ _ _ hk2, lookupA_append_singleton_ne _ _ _ _ hk2]

theorem sellCurrency_ok_spec (portfolios : Portfolios) (rates : RatesCache) (uid : ℤ)
    (currency cur : String) (amount : ℚ) (base : String) (now : ℤ) (p : Portfolio) (w : Wallet)
    (hcur : pyStrip (pyUpper currency) = cur)
    (hshape : ensureUpperCurrency cur = Except.ok cur)
    (hamt : 0 < amount)
    (hp : (lookupA portfolios uid).getD { user_id := uid, wallets := [] } = p)
    (hwl : lookupA p.wallets cur = some w)
    (hwc : w.currency_code = cur) (hwb : 0 ≤ w.balance)
    (hsuff : amount ≤ w.balance) :
    sellCurrency portfolios rates uid currency amount base now =
      Except.ok (insertA portfolios uid
          ⟨p.user_id, insertA p.wallets cur
            ⟨cur, quantizeForCurrency cur (w.balance - amount)⟩⟩,
        { currency := cur, amount := amount,
          before := w.balance,
          after := quantizeForCurrency cur (w.balance - amount),
          rate_used :=
            (getRateFromCache rates cur base DEFAULT_TTL_SECONDS now).toOption.map Prod.fst,
          estimated_in_base :=
            (getRateFromCache rates cur base DEFAULT_TTL_SECONDS now).toOption.map
              (fun rc => quantizeHalfEven DEC_FIAT_Q (amount * rc.1)),
          base := base })
    ∧ lookupA (insertA p.wallets cur
          ⟨cur, quantizeForCurrency cur (w.balance - amount)⟩) cur
        = some (Wallet.mk cur (quantizeForCurrency cur (w.balance - amount)))
    ∧ (∀ k2, k2 ≠ cur →
        lookupA (insertA p.wallets cur
            ⟨cur, quantizeForCurrency cur (w.balance - amount)⟩) k2
          = lookupA p.wallets k2) := by
  have hne : cur ≠ "" := by
    intro h
    rw [h] at hshape
    exact absurd hshape (by decide)
  refine ⟨?_, ?_, ?_⟩
  · simp only [sellCurrency, if_neg (not_le.mpr hamt), hcur, if_neg hne, hp,
      Portfolio.getWallet, hshape, hwl]
    rw [Wallet.withdraw_ok w amount hamt hsuff]
    simp [hwc]
  · rw [lookupA_insertA_self]
  · intro k2 hk2
    exact lookupA_insertA_ne _ _ _ _ hk2

theorem sellCurrency_insufficient_spec (portfolios : Portfolios) (rates : RatesCache) (uid : ℤ)
    (currency cur : String) (amount : ℚ) (base : String) (now : ℤ) (p : Portfolio) (w : Wallet)
    (hcur : pyStrip (pyUpper currency) = cur)
    (hshape : ensureUpperCurrency cur = Except.ok cur)
    (hamt : 0 < amount)
    (hp : (lookupA portfolios uid).getD { user_id := uid, wallets := [] } = p)
    (hwl : lookupA p.wallets cur = some w)
    (hwb : 0 ≤ w.balance)
    (hlt : w.balance < amount) :
    sellCurrency portfolios rates uid currency amount base now =
      Except.error (.insufficientFunds w.balance amount w.currency_code) := by
  have hne : cur ≠ "" := by
    intro h
    rw [h] at hshape
    exact absurd hshape (by decide)
  simp only [sellCurrency, if_neg (not_le.mpr hamt), hcur, if_neg hne, hp,
    Portfolio.getWallet, hshape, hwl]
  rw [Wallet.withdraw_insufficient w amount hwb hlt]

/-! Helper lemmas for the update cycle. -/

theorem nodup_keys_mergeStep (m : Pairs) (kv : String × PairEntry)
    (h : (m.map Prod.fst).Nodup) : ((mergeStep m kv).map Prod.fst).Nodup := by
  unfold mergeStep
  split
  · exact nodup_keys_insertA _ _ _ h
  · split
    · exact nodup_keys_insertA _ _ _ h
    · exact h

theorem nodup_keys_mergeInto (fetched : Pairs) (m : Pairs)
    (h : (m.map Prod.fst).Nodup) : ((mergeInto m fetched).map Prod.fst).Nodup := by
  induction fetched generalizing m with
  | nil => exact h
  | cons kv rest ih =>
    rw [mergeInto, List.foldl_cons]
    exact ih _ (nodup_keys_mergeStep m kv h)

theorem nodup_keys_foldl_cycleStep {H : Type} (results : List (FetchOutcome H))
    (acc : CycleAcc H) (h : (acc.1.map Prod.fst).Nodup) :
    (((results.foldl cycleStep acc).1).map Prod.fst).Nodup := by
  induction results generalizing acc with
  | nil => simpa using h
  | cons r rest ih =>
    rw [List.foldl_cons]
    apply ih
    cases r with
    | ok pr =>
      obtain ⟨pairs, hist⟩ := pr
      exact nodup_keys_mergeInto pairs acc.1 h
    | error e => exact h

theorem foldl_cycleStep_all_errors {H : Type} (results : List (FetchOutcome H))
    (acc : CycleAcc H) (h : ∀ r ∈ results, ∃ e, r = Except.error e) :
    ∃ errs, results.foldl cycleStep acc = (acc.1, acc.2.1, acc.2.2.1 ++ errs, acc.2.2.2) := by
  induction results generalizing acc with
  | nil => exact ⟨[], by simp⟩
  | cons r rest ih =>
    obtain ⟨e, rfl⟩ := h r (List.mem_cons_self r rest)
    have h' : ∀ x ∈ rest, ∃ e2, x = Except.error e2 :=
      fun x hx => h x (List.mem_cons_of_mem _ hx)
    obtain ⟨errs, heq⟩ := ih (cycleStep acc (.error e)) h'
    refine ⟨e :: errs, ?_⟩
    rw [List.foldl_cons, heq]
    simp [cycleStep]

end VTHub

namespace VTHub

/-- Claim C1 (amended).  A successful `buy_currency(currency, amount, base)`
reflects only ONE leg in the persisted portfolio: the `currency` wallet
(auto-created at zero when absent) ends at the old balance plus `amount`,
quantized to that currency's precision, and every other wallet — in
particular the `base` wallet — is left exactly as it was: no cost is
withdrawn.  The resolved rate only populates the result's `rate_used` and
`estimated_cost_in_base` fields (`cost = amount * rate` quantized half-even
to 0.01), it never feeds a second wallet mutation. -/
theorem claim_C1_theorem (portfolios : Portfolios) (rates : RatesCache) (uid : ℤ)
    (currency cur : String) (amount : ℚ) (base : String) (now : ℤ) (p : Portfolio)
    (hcur : pyStrip (pyUpper currency) = cur)
    (hshape : ensureUpperCurrency cur = Except.ok cur)
    (hamt : 0 < amount)
    (hp : (lookupA portfolios uid).getD { user_id := uid, wallets := [] } = p)
    (hw : ∀ w, lookupA p.wallets cur = some w → w.currency_code = cur ∧ 0 ≤ w.balance) :
    ∃ p2 : Portfolio,
      buyCurrency portfolios rates uid currency amount base now =
        Except.ok (insertA portfolios uid p2,
          { currency := cur, amount := amount,
            before := ((lookupA p.wallets cur).map Wallet.balance).getD 0,
            after := quantizeForCurrency cur
              (((lookupA p.wallets cur).map Wallet.balance).getD 0 + amount),
            rate_used :=
              (getRateFromCache rates cur base DEFAULT_TTL_SECONDS now).toOption.map Prod.fst,
            estimated_in_base :=
              (getRateFromCache rates cur base DEFAULT_TTL_SECONDS now).toOption.map
                (fun rc => quantizeHalfEven DEC_FIAT_Q (amount * rc.1)),
            base := base })
      ∧ lookupA p2.wallets cur = some (Wallet.mk cur (quantizeForCurrency cur
            (((lookupA p.wallets cur).map Wallet.balance).getD 0 + amount)))
      ∧ (∀ k2, k2 ≠ cur → lookupA p2.wallets k2 = lookupA p.wallets k2) :=
  buyCurrency_ok_spec portfolios rates uid currency cur amount base now p
    hcur hshape hamt hp hw

/-- Claim C2 (amended).  A successful `sell_currency` reflects only the
withdrawal leg: `amount` is withdrawn from the existing `currency` wallet
(the insufficient-funds check happens inside the `withdraw` primitive, and
its failure aborts the trade with nothing persisted), but no revenue is ever
deposited — the `base` wallet and all other wallets are untouched, and
`revenue = amount * rate` only appears as the result's estimated field. -/
theorem claim_C2_theorem (portfolios : Portfolios) (rates : RatesCache) (uid : ℤ)
    (currency cur : String) (amount : ℚ) (base : String) (now : ℤ) (p : Portfolio) (w : Wallet)
    (hcur : pyStrip (pyUpper currency) = cur)
    (hshape : ensureUpperCurrency cur = Except.ok cur)
    (hamt : 0 < amount)
    (hp : (lookupA portfolios uid).getD { user_id := uid, wallets := [] } = p)
    (hwl : lookupA p.wallets cur = some w)
    (hwc : w.currency_code = cur) (hwb : 0 ≤ w.balance) :
    (amount ≤ w.balance →
      sellCurrency portfolios rates uid currency amount base now =
        Except.ok (insertA portfolios uid
            ⟨p.user_id, insertA p.wallets cur
              ⟨cur, quantizeForCurrency cur (w.balance - amount)⟩⟩,
          { currency := cur, amount := amount,
            before := w.balance,
            after := quantizeForCurrency cur (w.balance - amount),
            rate_used :=
              (getRateFromCache rates cur base DEFAULT_TTL_SECONDS now).toOption.map Prod.fst,
            estimated_in_base :=
              (getRateFromCache rates cur base DEFAULT_TTL_SECONDS now).toOption.map
                (fun rc => quantizeHalfEven DEC_FIAT_Q (amount * rc.1)),
            base := base })
      ∧ (∀ k2, k2 ≠ cur →
          lookupA (insertA p.wallets cur
              ⟨cur, quantizeForCurrency cur (w.balance - amount)⟩) k2
            = lookupA p.wallets k2))
    ∧ (w.balance < amount →
        sellCurrency portfolios rates uid currency amount base now =
          Except.error (.insufficientFunds w.balance amount cur)) := by
  constructor
  · intro hsuff
    obtain ⟨heq, _, hothers⟩ := sellCurrency_ok_spec portfolios rates uid currency cur amount
      base now p w hcur hshape hamt hp hwl hwc hwb hsuff
    exact ⟨heq, hothers⟩
  · intro hlt
    have h := sellCurrency_insufficient_spec portfolios rates uid currency cur amount
      base now p w hcur hshape hamt hp hwl hwb hlt
    rwa [hwc] at h

/-- Claim C3 (amended).  An update cycle in which every invoked adapter
failed reports status `failed`, leaves the history log's CONTENT unchanged
(it appends zero records), but still overwrites the rates snapshot: the
persisted `rates.json` payload has an empty `pairs` mapping and a fresh
`last_refresh` — the previous snapshot is NOT preserved, because
`run_update` writes the cache file unconditionally. -/
theorem claim_C3_theorem {H : Type} (results : List (FetchOutcome H))
    (oldHistory : Option (List H)) (now : String)
    (hall : ∀ r ∈ results, ∃ e, r = Except.error e) :
    (runUpdate results oldHistory now).report.status = "failed"
    ∧ (runUpdate results oldHistory now).ratesDoc.pairs = []
    ∧ (runUpdate results oldHistory now).history = oldHistory.getD [] := by
  obtain ⟨errs, heq⟩ := foldl_cycleStep_all_errors results (([], [], [], 0) : CycleAcc H) hall
  refine ⟨?_, ?_, ?_⟩ <;> simp [runUpdate, heq]

/-- Claim C4.  For every wallet with a non-negative balance, a withdrawal of
more than the balance raises `InsufficientFundsError` reporting
`available = balance` and `required = amount` and leaves the wallet
unchanged; consequently no sequence of deposit/withdraw operations ever
drives a wallet balance negative. -/
theorem claim_C4_theorem (w : Wallet) (hb : 0 ≤ w.balance) :
    (∀ a : ℚ, w.balance < a →
        w.withdraw a = .error (.insufficientFunds w.balance a w.currency_code)
        ∧ applyOp w (.withdraw a) = w)
    ∧ ∀ ops : List WalletOp, 0 ≤ (applyOps w ops).balance := by
  constructor
  · intro a hlt
    have herr := Wallet.withdraw_insufficient w a hb hlt
    refine ⟨herr, ?_⟩
    rw [applyOp, herr]
  · exact fun ops => applyOps_balance_nonneg ops w hb

/-- Claim C5.  The merged snapshot of an update cycle maps each ordered pair
key to exactly one quote (its key list stays duplicate-free), and the merge
tie-break holds: for two quotes on the same key whose `updated_at` strings
compare `T1 < T2`, the cycle keeps the `T2` quote regardless of which
adapter ran first, and on a timestamp tie the first quote seen is kept (the
loser is discarded, never averaged). -/
theorem claim_C5_theorem {H : Type} (k : String) (q1 q2 : PairEntry)
    (h1 h2 : List H) (old : Option (List H)) (now : String) :
    (∀ results : List (FetchOutcome H),
        (((runUpdate results old now).ratesDoc.pairs).map Prod.fst).Nodup)
    ∧ (strLt q1.updated_at q2.updated_at = true →
        lookupA (runUpdate [.ok ([(k, q1)], h1), .ok ([(k, q2)], h2)]
            old now).ratesDoc.pairs k = some q2
        ∧ lookupA (runUpdate [.ok ([(k, q2)], h2), .ok ([(k, q1)], h1)]
            old now).ratesDoc.pairs k = some q2)
    ∧ (q1.updated_at = q2.updated_at →
        lookupA (runUpdate [.ok ([(k, q1)], h1), .ok ([(k, q2)], h2)]
            old now).ratesDoc.pairs k = some q1) := by
  refine ⟨?_, ?_, ?_⟩
  · intro results
    exact nodup_keys_foldl_cycleStep results _ (by simp)
  · intro hlt
    constructor
    · simp [runUpdate, cycleStep, mergeInto, mergeStep, lookupA, insertA, hlt]
    · simp [runUpdate, cycleStep, mergeInto, mergeStep, lookupA, insertA, strLt,
        charListLt_asymm _ _ hlt]
  · intro heq
    simp [runUpdate, cycleStep, mergeInto, mergeStep, lookupA, insertA, strLt, heq,
      charListLt_irrefl]

/-- Claim C6.  The cached-rate resolver treats a quote as fresh exactly when
`now - observed_at ≤ ttl_seconds`, inclusive at the boundary: with a direct
cache entry observed `obs` and no inverse entry, the lookup returns the
quote whenever its age is at most the TTL (in particular at age exactly
`ttl`), and fails with the rate-unavailable error (`CurrencyNotFoundError`
in the code, the spec's `RateUnavailable`) as soon as the age exceeds the
TTL (in particular at age `ttl + 1`). -/
theorem claim_C6_theorem (rates : RatesCache) (frm toCode : String) (r : ℚ)
    (obs ttl now : ℤ)
    (hd : lookupA rates (pairKey frm toCode) = some { rate := r, updated_at := some obs })
    (hi : lookupA rates (pairKey toCode frm) = none) :
    (now - obs ≤ ttl → getRateFromCache rates frm toCode ttl now = .ok (r, obs))
    ∧ (ttl < now - obs →
        getRateFromCache rates frm toCode ttl now = .error (.rateNotFound frm toCode)) :=
  ⟨fun hfresh => getRateFromCache_direct_ok rates frm toCode r obs ttl now hd hfresh,
   fun hstale => getRateFromCache_stale rates frm toCode r obs ttl now hd hi hstale⟩

/-- Claim C7 (amended).  The `from == to` short-circuit returning rate 1
without a cache lookup exists only in the internal resolver of
`Portfolio.get_total_value`; the cache resolver used by `get_rate` and the
trade flows has no such case — for any pair `(C, C)` whose key `C_C` is not
in the cache it fails with the rate-unavailable `CurrencyNotFoundError`
instead of returning 1. -/
theorem claim_C7_theorem :
    (∀ (provider : Option (String → String → ℚ))
       (cache : Option (List ((String × String) × ℚ))) (frm : String),
        totalGetRate provider cache frm frm = .ok 1)
    ∧ (∀ (rates : RatesCache) (c : String) (ttl now : ℤ),
        lookupA rates (pairKey c c) = none →
        getRateFromCache rates c c ttl now = .error (.rateNotFound c c)) := by
  constructor
  · intro provider cache frm
    simp [totalGetRate]
  · intro rates c ttl now h
    simp [getRateFromCache, h, freshEntry]

/-- Claim C8 (amended).  With a single fresh quote of rate `r` stored for the
direct pair, the direct read returns `r` and the inverse-fallback read
returns the context-rounded division `decDiv 1 r`; the two reads are exact
reciprocals under the program's `Decimal` arithmetic whenever the 28-digit
rounding is exact on `1 / r` and on `r` (e.g. rates whose reciprocal
terminates within 28 significant digits) — not for every positive rate. -/
theorem claim_C8_theorem (rates : RatesCache) (frm toCode : String) (r : ℚ) (obs ttl now : ℤ)
    (hd : lookupA rates (pairKey frm toCode) = some { rate := r, updated_at := some obs })
    (hi : lookupA rates (pairKey toCode frm) = none)
    (hfresh : now - obs ≤ ttl)
    (hinv : decRoundSig (1 / r) = 1 / r) (hr : decRoundSig r = r) :
    getRateFromCache rates frm toCode ttl now = .ok (r, obs)
    ∧ getRateFromCache rates toCode frm ttl now = .ok (decDiv 1 r, obs)
    ∧ decDiv 1 (decDiv 1 r) = r := by
  refine ⟨getRateFromCache_direct_ok rates frm toCode r obs ttl now hd hfresh,
    getRateFromCache_inverse_ok rates toCode frm r obs ttl now hi hd hfresh, ?_⟩
  calc decDiv 1 (decDiv 1 r) = decRoundSig (1 / decRoundSig (1 / r)) := rfl
    _ = decRoundSig (1 / (1 / r)) := by rw [hinv]
    _ = decRoundSig r := by rw [one_div_one_div]
    _ = r := hr

/-- Claim C9 (amended).  Currency lookup first normalizes the code (strip,
upper-case) and validates its shape as 2–5 alphanumeric characters without
spaces (not 2–10): it fails with `ValidationError` exactly when the
normalized code violates that shape, fails with `CurrencyNotFoundError` for
every well-shaped code that is not registered, and returns the registered
code otherwise. -/
theorem claim_C9_theorem (code : String) :
    (normRejects (pyUpper (pyStrip code)) = true →
        getCurrency code = .error (.validationError "bad currency code shape"))
    ∧ (normRejects (pyUpper (pyStrip code)) = false →
        pyUpper (pyStrip code) ∉ REGISTERED_CODES →
        getCurrency code = .error (.unknownCurrency (pyUpper (pyStrip code))))
    ∧ (normRejects (pyUpper (pyStrip code)) = false →
        pyUpper (pyStrip code) ∈ REGISTERED_CODES →
        getCurrency code = .ok (pyUpper (pyStrip code))) := by
  refine ⟨fun h => ?_, fun h hmem => ?_, fun h hmem => ?_⟩
  · simp [getCurrency, normalizeCode, h]
  · simp [getCurrency, normalizeCode, h, hmem]
  · simp [getCurrency, normalizeCode, h, hmem]

/-- Claim C10.  When the cached rate lookup for `currency -> base` fails
(no fresh direct or inverse quote), both `buy_currency` and `sell_currency`
swallow the error: the trade still succeeds, the wallet mutation is applied
and persisted, and the result reports `rate_used` and the estimated
cost/revenue as `"N/A"` (`none` in this embedding) — rate unavailability
never aborts or rolls back a trade. -/
theorem claim_C10_theorem (portfolios : Portfolios) (rates : RatesCache) (uid : ℤ)
    (currency cur : String) (amount : ℚ) (base : String) (now : ℤ) (p : Portfolio) (err : Err)
    (hcur : pyStrip (pyUpper currency) = cur)
    (hshape : ensureUpperCurrency cur = Except.ok cur)
    (hamt : 0 < amount)
    (hp : (lookupA portfolios uid).getD { user_id := uid, wallets := [] } = p)
    (hrate : getRateFromCache rates cur base DEFAULT_TTL_SECONDS now = Except.error err) :
    ((∀ w, lookupA p.wallets cur = some w → w.currency_code = cur ∧ 0 ≤ w.balance) →
      ∃ p2 : Portfolio,
        buyCurrency portfolios rates uid currency amount base now =
          Except.ok (insertA portfolios uid p2,
            { currency := cur, amount := amount,
              before := ((lookupA p.wallets cur).map Wallet.balance).getD 0,
              after := quantizeForCurrency cur
                (((lookupA p.wallets cur).map Wallet.balance).getD 0 + amount),
              rate_used := none, estimated_in_base := none, base := base })
        ∧ lookupA p2.wallets cur = some (Wallet.mk cur (quantizeForCurrency cur
              (((lookupA p.wallets cur).map Wallet.balance).getD 0 + amount))))
    ∧ (∀ w, lookupA p.wallets cur = some w → w.currency_code = cur → 0 ≤ w.balance →
        amount ≤ w.balance →
        sellCurrency portfolios rates uid currency amount base now =
          Except.ok (insertA portfolios uid
              ⟨p.user_id, insertA p.wallets cur
                ⟨cur, quantizeForCurrency cur (w.balance - amount)⟩⟩,
            { currency := cur, amount := amount, before := w.balance,
              after := quantizeForCurrency cur (w.balance - amount),
              rate_used := none, estimated_in_base := none, base := base })) := by
  constructor
  · intro hw
    obtain ⟨p2, heq, hlook, _⟩ := buyCurrency_ok_spec portfolios rates uid currency cur amount
      base now p hcur hshape hamt hp hw
    refine ⟨p2, ?_, hlook⟩
    rw [heq, hrate]
    rfl
  · intro w hwl hwc hwb hsuff
    obtain ⟨heq, _, _⟩ := sellCurrency_ok_spec portfolios rates uid currency cur amount
      base now p w hcur hshape hamt hp hwl hwc hwb hsuff
    rw [heq, hrate]
    rfl

end VTHub

namespace VTHub

section ConcreteEvaluations

attribute [local semireducible] Rat.mul Rat.inv Rat.add Rat.sub Rat.ofScientific

/-- Counterexample to claim C1 as stated.  On the spec's own §8 scenario
(1000.00 USD, 0.05 BTC, fresh BTC→USD rate 60000), a successful
`buy_currency("BTC", 0.01)` resolves the rate (`rate_used = 60000`) and
deposits into the BTC wallet, yet the persisted USD (base) wallet still
holds 1000 — not `1000 - cost = 400` as the two-leg claim requires. -/
theorem claim_C1_counterexample :
    ((buyCurrency FIX_PORTFOLIOS FIX_RATES 1 "BTC" (1 / 100) "USD" 1000).toOption.map
        fun o => (walletBalance o.1 1 "USD", walletBalance o.1 1 "BTC", o.2.rate_used))
      = some (some 1000, some (6 / 100), some 60000)
    ∧ (1000 : ℚ) ≠ quantizeForCurrency "USD" (1000 - 1 / 100 * 60000) := by decide

/-- Witness for the amended claim C1 at the §8 scenario. -/
theorem claim_C1_witness :
    ∃ p2 : Portfolio,
      buyCurrency FIX_PORTFOLIOS FIX_RATES 1 "BTC" (1 / 100) "USD" 1000 =
        Except.ok (insertA FIX_PORTFOLIOS 1 p2,
          { currency := "BTC", amount := 1 / 100,
            before := 5 / 100,
            after := quantizeForCurrency "BTC" (5 / 100 + 1 / 100),
            rate_used :=
              (getRateFromCache FIX_RATES "BTC" "USD" DEFAULT_TTL_SECONDS 1000).toOption.map
                Prod.fst,
            estimated_in_base :=
              (getRateFromCache FIX_RATES "BTC" "USD" DEFAULT_TTL_SECONDS 1000).toOption.map
                (fun rc => quantizeHalfEven DEC_FIAT_Q (1 / 100 * rc.1)),
            base := "USD" })
      ∧ lookupA p2.wallets "BTC"
          = some (Wallet.mk "BTC" (quantizeForCurrency "BTC" (5 / 100 + 1 / 100)))
      ∧ (∀ k2, k2 ≠ "BTC" → lookupA p2.wallets k2 = lookupA FIX_P.wallets k2) :=
  claim_C1_theorem FIX_PORTFOLIOS FIX_RATES 1 "BTC" "BTC" (1 / 100) "USD" 1000 FIX_P
    (by decide) (by decide) (by norm_num) (by decide)
    (by
      intro w h
      rw [show lookupA FIX_P.wallets "BTC" = some (Wallet.mk "BTC" (5 / 100)) from by decide]
        at h
      injection h with h2
      subst h2
      exact ⟨rfl, by norm_num⟩)

/-- Counterexample to claim C2 as stated.  On the §8 scenario, a successful
`sell_currency("BTC", 0.01)` withdraws the BTC but the persisted USD (base)
wallet still holds 1000 — not `1000 + revenue = 1600` as the two-leg claim
requires, even though the rate resolved (`rate_used = 60000`). -/
theorem claim_C2_counterexample :
    ((sellCurrency FIX_PORTFOLIOS FIX_RATES 1 "BTC" (1 / 100) "USD" 1000).toOption.map
        fun o => (walletBalance o.1 1 "USD", walletBalance o.1 1 "BTC", o.2.rate_used))
      = some (some 1000, some (4 / 100), some 60000)
    ∧ (1000 : ℚ) ≠ quantizeForCurrency "USD" (1000 + 1 / 100 * 60000) := by decide

/-- Witness for the amended claim C2: the sufficient-funds leg at the §8
scenario, and the insufficient-funds abort when selling 1 BTC against a
0.05 BTC balance. -/
theorem claim_C2_witness :
    (sellCurrency FIX_PORTFOLIOS FIX_RATES 1 "BTC" (1 / 100) "USD" 1000 =
        Except.ok (insertA FIX_PORTFOLIOS 1
            ⟨FIX_P.user_id, insertA FIX_P.wallets "BTC"
              ⟨"BTC", quantizeForCurrency "BTC" (5 / 100 - 1 / 100)⟩⟩,
          { currency := "BTC", amount := 1 / 100,
            before := 5 / 100,
            after := quantizeForCurrency "BTC" (5 / 100 - 1 / 100),
            rate_used :=
              (getRateFromCache FIX_RATES "BTC" "USD" DEFAULT_TTL_SECONDS 1000).toOption.map
                Prod.fst,
            estimated_in_base :=
              (getRateFromCache FIX_RATES "BTC" "USD" DEFAULT_TTL_SECONDS 1000).toOption.map
                (fun rc => quantizeHalfEven DEC_FIAT_Q (1 / 100 * rc.1)),
            base := "USD" })
      ∧ (∀ k2, k2 ≠ "BTC" →
          lookupA (insertA FIX_P.wallets "BTC"
              ⟨"BTC", quantizeForCurrency "BTC" (5 / 100 - 1 / 100)⟩) k2
            = lookupA FIX_P.wallets k2))
    ∧ sellCurrency FIX_PORTFOLIOS FIX_RATES 1 "BTC" 1 "USD" 1000 =
        Except.error (.insufficientFunds (5 / 100) 1 "BTC") :=
  ⟨(claim_C2_theorem FIX_PORTFOLIOS FIX_RATES 1 "BTC" "BTC" (1 / 100) "USD" 1000 FIX_P
      ⟨"BTC", 5 / 100⟩ (by decide) (by decide) (by norm_num) (by decide) (by decide) rfl
      (by norm_num)).1 (by norm_num),
   (claim_C2_theorem FIX_PORTFOLIOS FIX_RATES 1 "BTC" "BTC" 1 "USD" 1000 FIX_P
      ⟨"BTC", 5 / 100⟩ (by decide) (by decide) (by norm_num) (by decide) (by decide) rfl
      (by norm_num)).2 (by norm_num)⟩

/-- Counterexample to claim C3 as stated.  A cycle in which both clients
fail still persists a rates snapshot: the written `pairs` mapping is empty
while the previously persisted snapshot was not — the old snapshot is
overwritten, not left untouched (the history content alone survives). -/
theorem claim_C3_counterexample :
    (runUpdate CE3_RESULTS (some ["old-history-record"]) "2025-10-10T13:00:00Z").report.status
        = "failed"
    ∧ (runUpdate CE3_RESULTS (some ["old-history-record"])
        "2025-10-10T13:00:00Z").ratesDoc.pairs = []
    ∧ CE3_PREV.pairs ≠ []
    ∧ (runUpdate CE3_RESULTS (some ["old-history-record"]) "2025-10-10T13:00:00Z").history
        = ["old-history-record"] := by decide

/-- Witness for the amended claim C3 at a concrete two-failure cycle. -/
theorem claim_C3_witness :
    (runUpdate (H := String) [Except.error "a", Except.error "b"]
        (some ["h0"]) "T1").report.status = "failed"
    ∧ (runUpdate (H := String) [Except.error "a", Except.error "b"]
        (some ["h0"]) "T1").ratesDoc.pairs = []
    ∧ (runUpdate (H := String) [Except.error "a", Except.error "b"]
        (some ["h0"]) "T1").history = ["h0"] := by
  have h := claim_C3_theorem (H := String) [Except.error "a", Except.error "b"] (some ["h0"])
    "T1"
    (by
      intro r hr
      rcases List.mem_cons.mp hr with h1 | h1
      · exact ⟨"a", h1⟩
      · rcases List.mem_cons.mp h1 with h2 | h2
        · exact ⟨"b", h2⟩
        · exact absurd h2 (List.not_mem_nil r))
  exact ⟨h.1, h.2.1, h.2.2⟩

/-- Witness for claim C4: a 2000-unit withdrawal against a 1000 USD balance
raises `InsufficientFundsError` with `available = 1000`, `required = 2000`
and leaves the wallet unchanged, and a sample operation sequence keeps the
balance non-negative. -/
theorem claim_C4_witness :
    (Wallet.withdraw ⟨"USD", 1000⟩ 2000
        = .error (.insufficientFunds 1000 2000 "USD")
      ∧ applyOp ⟨"USD", 1000⟩ (.withdraw 2000) = ⟨"USD", 1000⟩)
    ∧ 0 ≤ (applyOps ⟨"USD", 1000⟩
        [.deposit 5, .withdraw 2000, .withdraw 100]).balance := by
  have h := claim_C4_theorem ⟨"USD", 1000⟩ (by norm_num)
  exact ⟨h.1 2000 (by norm_num), h.2 _⟩

/-- Witness for claim C5 at two concrete quotes one second apart (both
adapter orders keep the newer quote) and a concrete timestamp tie (the first
quote seen is kept). -/
theorem claim_C5_witness :
    (((runUpdate (H := Nat) [Except.ok ([("EUR_USD", W5_Q1)], [])]
        none "T").ratesDoc.pairs).map Prod.fst).Nodup
    ∧ lookupA (runUpdate (H := Nat)
        [Except.ok ([("EUR_USD", W5_Q1)], []), Except.ok ([("EUR_USD", W5_Q2)], [])]
        none "T").ratesDoc.pairs "EUR_USD" = some W5_Q2
    ∧ lookupA (runUpdate (H := Nat)
        [Except.ok ([("EUR_USD", W5_Q2)], []), Except.ok ([("EUR_USD", W5_Q1)], [])]
        none "T").ratesDoc.pairs "EUR_USD" = some W5_Q2
    ∧ lookupA (runUpdate (H := Nat)
        [Except.ok ([("EUR_USD", W5_Q1)], []), Except.ok ([("EUR_USD", W5_Q3)], [])]
        none "T").ratesDoc.pairs "EUR_USD" = some W5_Q1 := by
  have h := claim_C5_theorem (H := Nat) "EUR_USD" W5_Q1 W5_Q2 [] [] none "T"
  have h3 := claim_C5_theorem (H := Nat) "EUR_USD" W5_Q1 W5_Q3 [] [] none "T"
  exact ⟨h.1 _, (h.2.1 (by decide)).1, (h.2.1 (by decide)).2, h3.2.2 (by decide)⟩

/-- Witness for claim C6: the cached BTC→USD quote observed at 900 with a
300-second TTL is returned at time 1200 (age exactly 300) and unavailable
at time 1201 (age 301). -/
theorem claim_C6_witness :
    getRateFromCache FIX_RATES "BTC" "USD" 300 1200 = .ok (60000, 900)
    ∧ getRateFromCache FIX_RATES "BTC" "USD" 300 1201
        = .error (.rateNotFound "BTC" "USD") :=
  ⟨(claim_C6_theorem FIX_RATES "BTC" "USD" 60000 900 300 1200 (by decide) (by decide)).1
      (by norm_num),
   (claim_C6_theorem FIX_RATES "BTC" "USD" 60000 900 300 1201 (by decide) (by decide)).2
      (by norm_num)⟩

/-- Counterexample to claim C7 as stated.  With an empty cache, resolving
the pair `(USD, USD)` does NOT return rate 1: both `_get_rate_from_cache`
and `get_rate` fail with the rate-unavailable `CurrencyNotFoundError`
because they have no `from == to` short-circuit. -/
theorem claim_C7_counterexample :
    getRateFromCache [] "USD" "USD" DEFAULT_TTL_SECONDS 0
        = .error (.rateNotFound "USD" "USD")
    ∧ getRate [] "USD" "USD" DEFAULT_TTL_SECONDS 0
        = .error (.rateNotFound "USD" "USD") := by decide

/-- Witness for the amended claim C7: the total-value resolver short-circuit
at `(USD, USD)`, and the cache resolver's failure on `(USD, USD)` with a
cache lacking the `USD_USD` key. -/
theorem claim_C7_witness :
    totalGetRate none none "USD" "USD" = .ok 1
    ∧ getRateFromCache FIX_RATES "USD" "USD" 300 0
        = .error (.rateNotFound "USD" "USD") :=
  ⟨claim_C7_theorem.1 none none "USD",
   claim_C7_theorem.2 FIX_RATES "USD" 300 0 (by decide)⟩

/-- Counterexample to claim C8 as stated.  For the stored rate 7 the direct
read gives 7 and the inverse read gives the 28-digit rounded `decDiv 1 7`,
but under the program's `Decimal` arithmetic `1 / (1/7)` rounds to
`6.999999999999999999999999998`, so the two reads are NOT exact
reciprocals. -/
theorem claim_C8_counterexample :
    getRateFromCache CE8_RATES "EUR" "USD" 300 0 = .ok (7, 0)
    ∧ getRateFromCache CE8_RATES "USD" "EUR" 300 0 = .ok (decDiv 1 7, 0)
    ∧ decDiv 1 (decDiv 1 7) ≠ 7 := by decide

/-- Witness for the amended claim C8 at the stored rate 8, whose reciprocal
0.125 is exactly representable, so the round-trip is exact. -/
theorem claim_C8_witness :
    getRateFromCache W8_RATES "EUR" "USD" 300 0 = .ok (8, 0)
    ∧ getRateFromCache W8_RATES "USD" "EUR" 300 0 = .ok (decDiv 1 8, 0)
    ∧ decDiv 1 (decDiv 1 8) = 8 :=
  claim_C8_theorem W8_RATES "EUR" "USD" 8 0 300 0 (by decide) (by decide) (by norm_num)
    (by decide) (by decide)

/-- Counterexample to claim C9 as stated.  The code `ABCDEF` matches the
claimed 2–10 alphanumeric shape (the `^[A-Z0-9]{2,10}$` regex of
`core/models.py`), so per the claim its lookup should reach the registry and
fail with `CurrencyNotFound`; instead `get_currency` rejects it with
`ValidationError`, because `_normalize_code` in `core/currencies.py`
enforces 2–5 characters. -/
theorem claim_C9_counterexample :
    matchesCcyRe "ABCDEF" = true
    ∧ getCurrency "ABCDEF" = .error (.validationError "bad currency code shape") := by decide

/-- Witness for the amended claim C9: a too-short code is a validation
error, a well-shaped unregistered code is `CurrencyNotFound`, and a
registered code normalizes and succeeds. -/
theorem claim_C9_witness :
    getCurrency "A" = .error (.validationError "bad currency code shape")
    ∧ getCurrency "AB" = .error (.unknownCurrency "AB")
    ∧ getCurrency " usd " = .ok "USD" :=
  ⟨(claim_C9_theorem <| "A").1 (by decide),
   (claim_C9_theorem <| "AB").2.1 (by decide) (by decide),
   (claim_C9_theorem <| " usd ").2.2 (by decide) (by decide)⟩

/-- Witness for claim C10: with an empty rates cache both trades still
succeed against the §8 portfolio, persist their single-leg mutation, and
report `rate_used` and the estimate as `"N/A"` (`none`). -/
theorem claim_C10_witness :
    (∃ p2 : Portfolio,
      buyCurrency FIX_PORTFOLIOS [] 1 "BTC" (1 / 100) "USD" 1000 =
        Except.ok (insertA FIX_PORTFOLIOS 1 p2,
          { currency := "BTC", amount := 1 / 100,
            before := 5 / 100,
            after := quantizeForCurrency "BTC" (5 / 100 + 1 / 100),
            rate_used := none, estimated_in_base := none, base := "USD" })
      ∧ lookupA p2.wallets "BTC"
          = some (Wallet.mk "BTC" (quantizeForCurrency "BTC" (5 / 100 + 1 / 100))))
    ∧ sellCurrency FIX_PORTFOLIOS [] 1 "BTC" (1 / 100) "USD" 1000 =
        Except.ok (insertA FIX_PORTFOLIOS 1
            ⟨FIX_P.user_id, insertA FIX_P.wallets "BTC"
              ⟨"BTC", quantizeForCurrency "BTC" (5 / 100 - 1 / 100)⟩⟩,
          { currency := "BTC", amount := 1 / 100,
            before := 5 / 100,
            after := quantizeForCurrency "BTC" (5 / 100 - 1 / 100),
            rate_used := none, estimated_in_base := none, base := "USD" }) := by
  have h := claim_C10_theorem FIX_PORTFOLIOS [] 1 "BTC" "BTC" (1 / 100) "USD" 1000 FIX_P
    (.rateNotFound "BTC" "USD") (by decide) (by decide) (by norm_num) (by decide) (by decide)
  refine ⟨h.1 ?_, h.2 ⟨"BTC", 5 / 100⟩ (by decide) rfl (by norm_num) (by norm_num)⟩
  intro w hw
  rw [show lookupA FIX_P.wallets "BTC" = some (Wallet.mk "BTC" (5 / 100)) from by decide]
    at hw
  injection hw with h2
  subst h2
  exact ⟨rfl, by norm_num⟩

end ConcreteEvaluations

end VTHub
